import Mathlib

/-!
Subscription aggregator service.

A shallow embedding of the subscription service (`internal/models`,
`internal/repository`, `internal/services`, `internal/handlers`) together with
the properties of its month-overlap aggregation, its month parser and its
CRUD operations.

Modelling conventions.

* A Go `time.Time` is the record of its wall-clock fields.  A month-truncated
  SQL timestamp (`date_trunc('month', x)`) is represented by its month ordinal
  `12 * year + (month - 1)`, so that comparison of truncated timestamps is
  comparison of integers and `+ interval '1 month'` is `+ 1`.
* UUID values (`id`, `user_id`) are represented by their canonical text.
* A Go string is a Lean `String`; the month parser reads it character by
  character, which is byte by byte on every string it accepts (ASCII only).
* `price` is an unbounded integer; the SQL total is computed in `bigint` /
  `numeric` and is the returned `int64` whenever it fits.
* The table `subscriptions` is the list of its rows.  The audit columns
  `created_at` / `updated_at` are assigned by the ORM from the wall clock and
  are not part of the model.
* The repository errors are the `record not found` of a point lookup and the
  rejection of a written row by the column types of the table (`price` is
  `type:int`, a 32-bit integer; `service_name` is `type:text`, which holds no
  NUL character).  Connection failures are outside the model.
-/

namespace SubscriptionService

/-! ## Data model -/

instance instDecidableEqExcept {ε α : Type} [DecidableEq ε] [DecidableEq α] :
    DecidableEq (Except ε α)
  | .ok a, .ok b =>
    if h : a = b then isTrue (by rw [h]) else isFalse fun h2 => h (Except.ok.inj h2)
  | .error a, .error b =>
    if h : a = b then isTrue (by rw [h]) else isFalse fun h2 => h (Except.error.inj h2)
  | .ok _, .error _ => isFalse fun h => Except.noConfusion h
  | .error _, .ok _ => isFalse fun h => Except.noConfusion h

/-- Go `time.Time`, by its wall-clock fields; `utc` says the location is `time.UTC`. -/
structure Time where
  year : Int
  month : Nat
  day : Nat
  hour : Nat
  minute : Nat
  second : Nat
  nsec : Nat
  utc : Bool
deriving DecidableEq

/-- Go `time.Date(year, month, day, hour, min, sec, nsec, time.UTC)` for in-range
arguments (no normalisation is needed for a month in 1..12 and day 1). -/
def timeDateUTC (year : Int) (month day hour minute second nsec : Nat) : Time :=
  ⟨year, month, day, hour, minute, second, nsec, true⟩

/-- Go `models.Subscription` (without the audit timestamps). -/
structure Subscription where
  ID : String
  ServiceName : String
  Price : Int
  UserID : String
  StartDate : Time
  EndDate : Option Time
deriving DecidableEq

/-! ## `TotalForPeriod`: the SQL query -/

/-- SQL `date_trunc('month', x)` as a month ordinal. -/
def date_trunc_month (t : Time) : Int :=
  t.year * 12 + ((t.month : Int) - 1)

/-- The single row of the `period` CTE. -/
structure Period where
  from_m : Int
  to_m : Int
deriving DecidableEq

/-- SQL `WITH period AS (SELECT date_trunc('month', ?::date) AS from_m,
date_trunc('month', ?::date) AS to_m)`. -/
def periodCTE (fromT toT : Time) : Period :=
  ⟨date_trunc_month fromT, date_trunc_month toT⟩

/-- SQL `date_trunc('month', COALESCE(s.end_date, to_m))`; `to_m` is already
truncated. -/
def truncEndOr (s : Subscription) (to_m : Int) : Int :=
  match s.EndDate with
  | some e => date_trunc_month e
  | none => to_m

/-- The loop of `generate_series`: emit `cur` while `cur ≤ stop`, stepping by
one month. -/
def seriesLoop (stop : Int) : Nat → Int → List Int
  | 0, _ => []
  | fuel + 1, cur =>
    if cur ≤ stop then cur :: seriesLoop stop fuel (cur + 1) else []

/-- SQL `generate_series(start, stop, interval '1 month')` on month ordinals. -/
def generate_series (start stop : Int) : List Int :=
  seriesLoop stop (stop - start + 1).toNat start

/-- The `subs` CTE: rows of `subscriptions` passing the `WHERE` clause; the
`AND s.user_id = ?` / `AND s.service_name = ?` conjuncts are present only for
a non-empty argument. -/
def subsCTE (rows : List Subscription) (userID serviceName : String)
    (p : Period) : List Subscription :=
  rows.filter fun s =>
    decide (date_trunc_month s.StartDate ≤ p.to_m)
      && decide (truncEndOr s p.to_m ≥ p.from_m)
      && (userID == "" || s.UserID == userID)
      && (serviceName == "" || s.ServiceName == serviceName)

/-- The rows of `FROM subs s, period p, generate_series(GREATEST(..), LEAST(..),
interval '1 month') m`, projected on the grouping columns `(s.id, s.price)`. -/
def expJoin (subs : List Subscription) (p : Period) : List (String × Int) :=
  subs.flatMap fun s =>
    (generate_series (max (date_trunc_month s.StartDate) p.from_m)
        (min (truncEndOr s p.to_m) p.to_m)).map fun _ => (s.ID, s.Price)

/-- A row of the `exp` CTE. -/
structure ExpRow where
  id : String
  price : Int
  months_cnt : Nat
deriving DecidableEq

/-- The `exp` CTE: `SELECT s.id, s.price, COUNT(*) AS months_cnt ... GROUP BY
s.id, s.price`. -/
def expCTE (subs : List Subscription) (p : Period) : List ExpRow :=
  let joined := expJoin subs p
  joined.dedup.map fun k => ⟨k.1, k.2, (joined.filter fun r => decide (r = k)).length⟩

/-- SQL `SUM`: `NULL` over no rows. -/
def sqlSum : List Int → Option Int
  | [] => none
  | x :: xs => some (x :: xs).sum

/-- SQL `SELECT COALESCE(SUM(price * months_cnt), 0) AS total FROM exp`. -/
def selectTotal (exp : List ExpRow) : Int :=
  (sqlSum (exp.map fun r => r.price * (r.months_cnt : Int))).getD 0

/-- Go `subscriptionRepository.TotalForPeriod`. -/
def TotalForPeriod (rows : List Subscription) (userID serviceName : String)
    (fromT toT : Time) : Int :=
  let fromT := timeDateUTC fromT.year fromT.month 1 0 0 0 0
  let toT := timeDateUTC toT.year toT.month 1 0 0 0 0
  let p := periodCTE fromT toT
  selectTotal (expCTE (subsCTE rows userID serviceName p) p)

/-- Go `services.TotalFilter`. -/
structure TotalFilter where
  UserID : String
  ServiceName : String
  From : Time
  To : Time

/-- Go `service.Total`. -/
def Total (rows : List Subscription) (agg : TotalFilter) : Int :=
  let fromT := timeDateUTC agg.From.year agg.From.month 1 0 0 0 0
  let toT := timeDateUTC agg.To.year agg.To.month 1 0 0 0 0
  TotalForPeriod rows agg.UserID agg.ServiceName fromT toT

/-! ## The in-process reference of the specification (sections 4.2 and 4.3) -/

namespace Spec

/-- Spec `start_month(s)`. -/
def start_month (s : Subscription) : Int :=
  s.StartDate.year * 12 + ((s.StartDate.month : Int) - 1)

/-- Spec `end_month_or(to_m)`: the end date truncated to its month if present,
else `to_m`. -/
def end_month_or (s : Subscription) (to_m : Int) : Int :=
  match s.EndDate with
  | some e => e.year * 12 + ((e.month : Int) - 1)
  | none => to_m

/-- Exact-match equality filters; an absent filter imposes no constraint. -/
def passesFilters (userFilter serviceFilter : Option String)
    (s : Subscription) : Bool :=
  (match userFilter with
    | none => true
    | some u => s.UserID == u)
  && (match serviceFilter with
    | none => true
    | some n => s.ServiceName == n)

/-- The candidate predicate of section 4.2. -/
def isCandidate (s : Subscription) (from_m to_m : Int) : Bool :=
  decide (start_month s ≤ to_m) && decide (end_month_or s to_m ≥ from_m)

/-- Inclusive number of calendar months from `a` to `b`; zero when `b < a`. -/
def monthsInclusive (a b : Int) : Int :=
  if b < a then 0 else b - a + 1

/-- Spec `overlap_start`. -/
def overlap_start (s : Subscription) (from_m : Int) : Int :=
  max (start_month s) from_m

/-- Spec `overlap_end`. -/
def overlap_end (s : Subscription) (to_m : Int) : Int :=
  min (end_month_or s to_m) to_m

/-- The overlap month count of section 4.3. -/
def overlap_month_count (s : Subscription) (from_m to_m : Int) : Int :=
  monthsInclusive (overlap_start s from_m) (overlap_end s to_m)

/-- Spec `selectCandidates(...)`. -/
def selectCandidates (rows : List Subscription)
    (userFilter serviceFilter : Option String) (from_m to_m : Int) :
    List Subscription :=
  rows.filter fun s =>
    passesFilters userFilter serviceFilter s && isCandidate s from_m to_m

/-- Spec `sumPricesForOverlap`: the sum of `price × overlap_month_count` over the
candidates. -/
def sumPricesForOverlap (rows : List Subscription)
    (userFilter serviceFilter : Option String) (from_m to_m : Int) : Int :=
  ((selectCandidates rows userFilter serviceFilter from_m to_m).map fun s =>
    s.Price * overlap_month_count s from_m to_m).sum

end Spec

/-- How the repository reads a filter argument: the empty string is "absent". -/
def filterArg (s : String) : Option String :=
  if s = "" then none else some s

/-- The first instant of month `m` of year `y`. -/
def ym (m : Nat) (y : Int) : Time := timeDateUTC y m 1 0 0 0 0

/-! ## `parseMonth`: Go `time.Parse` with the layout `"01-2006"` -/

/-- Go `time.isDigit`: the byte at index `i` exists and is an ASCII decimal digit. -/
def isDigit (s : List Char) (i : Nat) : Bool :=
  match s.drop i with
  | [] => false
  | c :: _ => decide ('0'.toNat ≤ c.toNat) && decide (c.toNat ≤ '9'.toNat)

/-- The number `c - '0'`. -/
def digitVal (c : Char) : Nat := c.toNat - '0'.toNat

/-- Go `time.getnum`: a one- or two-digit number; with `fixed` exactly two
digits are required. -/
def getnum (s : List Char) (fixed : Bool) : Option (Nat × List Char) :=
  if !isDigit s 0 then none
  else if !isDigit s 1 then
    if fixed then none
    else
      match s with
      | c :: rest => some (digitVal c, rest)
      | [] => none
  else
    match s with
    | c0 :: c1 :: rest => some (digitVal c0 * 10 + digitVal c1, rest)
    | _ => none

/-- Go `time.skip` for a literal without white space: the value must start
with the literal, which is removed. -/
def skip : List Char → List Char → Option (List Char)
  | value, [] => some value
  | [], _ :: _ => none
  | v :: value, c :: rest => if v ≠ c then none else skip value rest

/-- Go `time.leadingInt`: the leading decimal digits of `s` as a number
(`none` on overflow of 63 bits) and the remainder. -/
def leadingInt : List Char → Nat → Option (Nat × List Char)
  | [], x => some (x, [])
  | c :: rest, x =>
    if c.toNat < '0'.toNat || c.toNat > '9'.toNat then some (x, c :: rest)
    else if x > 2 ^ 63 / 10 then none
    else
      let x1 := x * 10 + c.toNat - '0'.toNat
      if x1 > 2 ^ 63 then none else leadingInt rest x1

/-- Go `time.atoi`: an optionally signed decimal number with nothing after it. -/
def atoi (s : List Char) : Option Int :=
  let neg := decide (s.head? = some '-')
  let s1 := if s.head? = some '-' ∨ s.head? = some '+' then s.tail else s
  match leadingInt s1 0 with
  | none => none
  | some (q, rem) =>
    if rem.length > 0 then none
    else some (if neg then -(q : Int) else (q : Int))

/-- Go `time.Parse("01-2006", value)`.  The layout is the chunk `01`
(zero-padded month), the literal `-`, and the chunk `2006` (four-digit year);
text after the last chunk is an error.  The day defaults to 1, the clock to
midnight and the location to UTC. -/
def timeParse (value : List Char) : Option Time :=
  -- chunk `01`
  match getnum value true with
  | none => none
  | some (month, value) =>
    if month ≤ 0 ∨ 12 < month then none
    else
      -- literal `-`
      match skip value ['-'] with
      | none => none
      | some value =>
        -- chunk `2006`
        if value.length < 4 || !isDigit value 0 then none
        else
          match atoi (value.take 4) with
          | none => none
          | some year =>
            let value := value.drop 4
            if value.length ≠ 0 then none
            else some (timeDateUTC year month 1 0 0 0 0)

/-- The error of `parseMonth`. -/
inductive ParseError where
  | invalidFormat
deriving DecidableEq

/-- Go `parseMonth`. -/
def parseMonth (m : String) : Except ParseError Time :=
  match timeParse m.toList with
  | none => .error .invalidFormat
  | some t => .ok (timeDateUTC t.year t.month 1 0 0 0 0)

/-- The decimal digit `n` as a character. -/
def digitChar (n : Nat) : Char := Char.ofNat ('0'.toNat + n % 10)

/-- The digit loop of Go `time.appendInt`: the decimal digits of `u` are
put in front of `buf`, last digit first; `fuel` is the size of the buffer. -/
def appendIntLoop : Nat → Nat → List Char → List Char
  | 0, u, buf => digitChar u :: buf
  | fuel + 1, u, buf =>
    if u ≥ 10 then appendIntLoop fuel (u / 10) (digitChar (u % 10) :: buf)
    else digitChar u :: buf

/-- Go `time.appendInt` into an empty buffer: the decimal digits of `x`,
zero-padded to `width`, after a `-` for a negative `x`. -/
def appendInt (x : Int) (width : Nat) : List Char :=
  let digits := appendIntLoop 20 x.natAbs []
  (if x < 0 then ['-'] else []) ++ List.replicate (width - digits.length) '0' ++ digits

/-- Go `t.Format("01-2006")`: the re-serialisation of a month as `MM-YYYY`. -/
def formatMonth (t : Time) : String :=
  String.mk (appendInt t.month 2 ++ ['-'] ++ appendInt t.year 4)

namespace Spec

/-- An ASCII decimal digit. -/
def isDecimalDigit (c : Char) : Bool :=
  decide (48 ≤ c.toNat) && decide (c.toNat ≤ 57)

/-- The number written by a list of decimal digits. -/
def decimalValue (cs : List Char) : Nat :=
  cs.foldl (fun acc c => acc * 10 + (c.toNat - 48)) 0

/-- The shape `MM-YYYY`: two decimal digits forming a month in 01..12, a `-`,
four decimal digits, and nothing else. -/
def isMonthString (s : String) : Bool :=
  match s.toList with
  | [m1, m2, sep, y1, y2, y3, y4] =>
    isDecimalDigit m1 && isDecimalDigit m2 && sep == '-'
      && isDecimalDigit y1 && isDecimalDigit y2 && isDecimalDigit y3 && isDecimalDigit y4
      && decide (1 ≤ decimalValue [m1, m2]) && decide (decimalValue [m1, m2] ≤ 12)
  | _ => false

/-- The month written in an `MM-YYYY` string. -/
def writtenMonth (s : String) : Nat := decimalValue (s.toList.take 2)

/-- The year written in an `MM-YYYY` string. -/
def writtenYear (s : String) : Nat := decimalValue (s.toList.drop 3)

end Spec

/-! ## The store and the repository -/

/-- A call of a `SubscriptionRepository` method. -/
inductive RepoCall where
  | create (s : Subscription)
  | get (id : String)
  | update (s : Subscription)
  | delete (id : String)
deriving DecidableEq

/-- The table `subscriptions` and the record of the repository calls made so
far, oldest first. -/
structure Store where
  rows : List Subscription
  calls : List RepoCall
deriving DecidableEq

/-- The errors of the service layer. -/
inductive Error where
  /-- Message `invalid start_date, expected MM-YYYY` -/
  | invalidStartDate
  /-- Message `invalid end_date, expected MM-YYYY` -/
  | invalidEndDate
  /-- Message `invalid user_id uuid` -/
  | invalidUserID
  /-- Message `price must be >= 0` -/
  | priceNegative
  /-- The error `gorm.ErrRecordNotFound`, `record not found` -/
  | recordNotFound
  /-- The error of the database for a value a column type rejects -/
  | storeFailure
deriving DecidableEq

namespace Repository

/-- The column `price` of `models.Subscription` is `type:int`: it takes the
32-bit integers. -/
def int4Accepts (x : Int) : Bool :=
  decide (-2147483648 ≤ x) && decide (x ≤ 2147483647)

/-- The column `service_name` of `models.Subscription` is `type:text`: it
takes the strings without a NUL character. -/
def textAccepts (s : String) : Bool :=
  s.toList.all fun c => decide (c.toNat ≠ 0)

/-- Whether the columns of `subscriptions` take the row of a write. -/
def columnsAccept (s : Subscription) : Bool :=
  int4Accepts s.Price && textAccepts s.ServiceName

/-- Go `subscriptionRepository.Create`: `db.Create(s).Error`.  The primary key
of `s` is unset, so the row gets the column default `gen_random_uuid()`, here
`genID`; a row the columns reject is an error and nothing is inserted. -/
def Create (st : Store) (s : Subscription) (genID : String) :
    Except Error Subscription × Store :=
  if columnsAccept s then
    let row := { s with ID := genID }
    (.ok row, { rows := st.rows ++ [row], calls := st.calls ++ [.create s] })
  else (.error .storeFailure, { rows := st.rows, calls := st.calls ++ [.create s] })

/-- Go `subscriptionRepository.Get`: `db.First(&sub, "id = ?", id)`, which is
`ErrRecordNotFound` when no row matches. -/
def Get (st : Store) (id : String) : Except Error Subscription × Store :=
  let st1 := { st with calls := st.calls ++ [.get id] }
  match st.rows.find? fun r => r.ID == id with
  | none => (.error .recordNotFound, st1)
  | some sub => (.ok sub, st1)

/-- Go `subscriptionRepository.Update`: `db.Save(s).Error`, an update of all
columns of the row with the primary key of `s`, and an insert when no row has
it; a row the columns reject is an error and nothing is written. -/
def Update (st : Store) (s : Subscription) : Option Error × Store :=
  if columnsAccept s then
    let rows :=
      if st.rows.any fun r => r.ID == s.ID then
        st.rows.map fun r => if r.ID == s.ID then s else r
      else st.rows ++ [s]
    (none, { rows := rows, calls := st.calls ++ [.update s] })
  else (some .storeFailure, { rows := st.rows, calls := st.calls ++ [.update s] })

/-- Go `subscriptionRepository.Delete`: `db.Delete(&models.Subscription{}, "id = ?", id)`,
a `DELETE ... WHERE id = ?`; its `Error` is nil whatever the number of rows
affected. -/
def Delete (st : Store) (id : String) : Option Error × Store :=
  (none, { rows := st.rows.filter fun r => !(r.ID == id), calls := st.calls ++ [.delete id] })

end Repository

/-! ## The service -/

/-- Go `services.CreateDTO`. -/
structure CreateDTO where
  ServiceName : String
  Price : Int
  UserID : String
  StartMonth : String
  EndMonth : Option String

/-- Go `services.UpdateDTO`; a nil pointer is `none`. -/
structure UpdateDTO where
  ServiceName : Option String
  Price : Option Int
  StartMonth : Option String
  EndMonth : Option String

namespace Service

/-- Go `service.Create`.  `uuidParse` is `uuid.Parse` of the uuid library. -/
def Create (uuidParse : String → Option String) (genID : String) (st : Store)
    (inp : CreateDTO) : Except Error Subscription × Store :=
  match parseMonth inp.StartMonth with
  | .error _ => (.error .invalidStartDate, st)
  | .ok start =>
    let endRes : Except Error (Option Time) :=
      match inp.EndMonth with
      | none => .ok none
      | some e =>
        if e ≠ "" then
          match parseMonth e with
          | .error _ => .error .invalidEndDate
          | .ok t => .ok (some t)
        else .ok none
    match endRes with
    | .error err => (.error err, st)
    | .ok endPtr =>
      match uuidParse inp.UserID with
      | none => (.error .invalidUserID, st)
      | some uid =>
        let sub : Subscription :=
          { ID := "", ServiceName := inp.ServiceName, Price := inp.Price, UserID := uid,
            StartDate := start, EndDate := endPtr }
        Repository.Create st sub genID

/-- Go `service.Get`. -/
def Get (st : Store) (id : String) : Except Error Subscription × Store :=
  Repository.Get st id

/-- Go `service.Update`. -/
def Update (st : Store) (id : String) (inp : UpdateDTO) :
    Except Error Subscription × Store :=
  match Repository.Get st id with
  | (.error err, st) => (.error err, st)
  | (.ok ex, st) =>
    let merged : Except Error Subscription := do
      let ex :=
        match inp.ServiceName with
        | some name => { ex with ServiceName := name }
        | none => ex
      let ex ←
        match inp.Price with
        | some price =>
          if price < 0 then .error .priceNegative else pure { ex with Price := price }
        | none => pure ex
      let ex ←
        match inp.StartMonth with
        | some m =>
          match parseMonth m with
          | .error _ => .error .invalidStartDate
          | .ok start => pure { ex with StartDate := start }
        | none => pure ex
      let ex ←
        match inp.EndMonth with
        | some m =>
          if m = "" then pure { ex with EndDate := none }
          else
            match parseMonth m with
            | .error _ => .error .invalidEndDate
            | .ok ed => pure { ex with EndDate := some ed }
        | none => pure ex
      pure ex
    match merged with
    | .error err => (.error err, st)
    | .ok ex =>
      match Repository.Update st ex with
      | (some err, st) => (.error err, st)
      | (none, st) => (.ok ex, st)

/-- Go `service.Delete`. -/
def Delete (st : Store) (id : String) : Option Error × Store :=
  Repository.Delete st id

end Service

namespace Handler

/-- Go `SubscriptionHandler.Delete`: the HTTP status of the response, 404
(`not found`) on an error of the service and 200 (`deleted`) otherwise. -/
def Delete (st : Store) (id : String) : Nat × Store :=
  match Service.Delete st id with
  | (some _, st) => (404, st)
  | (none, st) => (200, st)

end Handler

/-! ## Contributions and sample rows -/

/-- What one subscription adds to the reference total. -/
def contribution (s : Subscription) (userID serviceName : String) (fromT toT : Time) : Int :=
  TotalForPeriod [s] userID serviceName fromT toT

/-- Scenario A: `start=07-2025, end=09-2025, price=300`. -/
def scenarioA : Subscription :=
  { ID := "0a000000-0000-4000-8000-00000000000a", ServiceName := "Yandex Plus", Price := 300,
    UserID := "60601fee-2bf1-4721-ae6f-7636e79a0cba", StartDate := ym 7 2025,
    EndDate := some (ym 9 2025) }

/-- Scenario B: `start=07-2025, end=null, price=100`. -/
def scenarioB : Subscription :=
  { ID := "0b000000-0000-4000-8000-00000000000b", ServiceName := "Yandex Plus", Price := 100,
    UserID := "60601fee-2bf1-4721-ae6f-7636e79a0cba", StartDate := ym 7 2025,
    EndDate := none }

/-- Scenario C: `start=01-2025, end=02-2025, price=50`. -/
def scenarioC : Subscription :=
  { ID := "0c000000-0000-4000-8000-00000000000c", ServiceName := "Yandex Plus", Price := 50,
    UserID := "60601fee-2bf1-4721-ae6f-7636e79a0cba", StartDate := ym 1 2025,
    EndDate := some (ym 2 2025) }

/-- A row whose end date (03-2025) is before its start date (05-2025). -/
def invertedRow : Subscription :=
  { ID := "0d000000-0000-4000-8000-00000000000d", ServiceName := "Yandex Plus", Price := 70,
    UserID := "60601fee-2bf1-4721-ae6f-7636e79a0cba", StartDate := ym 5 2025,
    EndDate := some (ym 3 2025) }

/-- The row `service.Create` builds from the request of the sample below. -/
def negativePriceRow : Subscription :=
  { ID := "0e000000-0000-4000-8000-00000000000e", ServiceName := "Yandex Plus", Price := -400,
    UserID := "60601fee-2bf1-4721-ae6f-7636e79a0cba", StartDate := ym 7 2025, EndDate := none }

/-! ## Lemmas on `parseMonth` -/

theorem isDigit_zero_cons (c : Char) (r : List Char) :
    isDigit (c :: r) 0 = Spec.isDecimalDigit c := rfl

theorem isDigit_one_cons (a c : Char) (r : List Char) :
    isDigit (a :: c :: r) 1 = Spec.isDecimalDigit c := rfl

theorem getnum_fixed_eq_some (l rest : List Char) (n : Nat) :
    getnum l true = some (n, rest) ↔
      ∃ a b, l = a :: b :: rest ∧ Spec.isDecimalDigit a = true ∧ Spec.isDecimalDigit b = true
        ∧ n = digitVal a * 10 + digitVal b := by
  rcases l with _ | ⟨a, _ | ⟨b, r⟩⟩
  · simp [getnum, isDigit]
  · simp [getnum, isDigit]
  · simp only [getnum, isDigit_zero_cons, isDigit_one_cons]
    cases ha : Spec.isDecimalDigit a <;> cases hb : Spec.isDecimalDigit b <;>
      simp [ha, hb]
    constructor
    · rintro ⟨h1, h2⟩; exact ⟨a, b, ⟨rfl, rfl, h2⟩, ha, hb, h1.symm⟩
    · rintro ⟨x, y, ⟨hx, hy, hr⟩, _, _, hn⟩; subst hx; subst hy; exact ⟨hn.symm, hr⟩

theorem skip_dash_eq_some (v rest : List Char) :
    skip v ['-'] = some rest ↔ v = '-' :: rest := by
  rcases v with _ | ⟨c, r⟩
  · simp [skip]
  · by_cases h : c = '-'
    · subst h; simp [skip]
    · simp [skip, h]

theorem leadingInt_digit (c : Char) (rest : List Char) (x : Nat)
    (hc : Spec.isDecimalDigit c = true) (hx : x < 1000) :
    leadingInt (c :: rest) x = leadingInt rest (x * 10 + digitVal c) := by
  simp only [Spec.isDecimalDigit, Bool.and_eq_true, decide_eq_true_eq] at hc
  have h0 : '0'.toNat = 48 := rfl
  have h9 : '9'.toNat = 57 := rfl
  simp only [leadingInt, h0, h9, digitVal]
  rw [if_neg (by simp; omega), if_neg (by omega), if_neg (by omega)]
  congr 1
  omega

theorem leadingInt_nondigit (c : Char) (rest : List Char) (x : Nat)
    (hc : Spec.isDecimalDigit c = false) :
    leadingInt (c :: rest) x = some (x, c :: rest) := by
  have h0 : '0'.toNat = 48 := rfl
  have h9 : '9'.toNat = 57 := rfl
  simp only [leadingInt, h0, h9]
  rw [if_pos]
  simp only [Spec.isDecimalDigit, Bool.and_eq_false_iff, decide_eq_false_iff_not] at hc
  simp only [Bool.or_eq_true, decide_eq_true_eq]
  omega

theorem digitVal_le (c : Char) (hc : Spec.isDecimalDigit c = true) : digitVal c ≤ 9 := by
  simp only [Spec.isDecimalDigit, Bool.and_eq_true, decide_eq_true_eq] at hc
  have h0 : '0'.toNat = 48 := rfl
  simp only [digitVal, h0]
  omega

/-- Go `atoi` on four bytes the first of which is a digit. -/
theorem atoi_four (y1 y2 y3 y4 : Char) (h1 : Spec.isDecimalDigit y1 = true) (v : Int) :
    atoi [y1, y2, y3, y4] = some v ↔
      Spec.isDecimalDigit y2 = true ∧ Spec.isDecimalDigit y3 = true
        ∧ Spec.isDecimalDigit y4 = true
        ∧ v = ((digitVal y1 * 1000 + digitVal y2 * 100 + digitVal y3 * 10 + digitVal y4 : Nat) : Int) := by
  have hm : y1 ≠ '-' := by rintro rfl; simp [Spec.isDecimalDigit] at h1
  have hp : y1 ≠ '+' := by rintro rfl; simp [Spec.isDecimalDigit] at h1
  have b1 := digitVal_le y1 h1
  simp only [atoi, List.head?_cons, Option.some.injEq, hm, hp, or_self, if_false,
    decide_False]
  rw [leadingInt_digit y1 _ 0 h1 (by omega)]
  cases h2 : Spec.isDecimalDigit y2
  · rw [leadingInt_nondigit y2 _ _ h2]; simp
  have b2 := digitVal_le y2 h2
  rw [leadingInt_digit y2 _ _ h2 (by omega)]
  cases h3 : Spec.isDecimalDigit y3
  · rw [leadingInt_nondigit y3 _ _ h3]; simp
  have b3 := digitVal_le y3 h3
  rw [leadingInt_digit y3 _ _ h3 (by omega)]
  cases h4 : Spec.isDecimalDigit y4
  · rw [leadingInt_nondigit y4 _ _ h4]; simp
  rw [leadingInt_digit y4 _ _ h4 (by omega)]
  simp only [leadingInt, List.length_nil, gt_iff_lt, lt_self_iff_false, if_false,
    Option.some.injEq, true_and]
  simp only [Bool.false_eq_true, if_false]
  constructor
  · intro h; rw [← h]; push_cast; ring
  · intro h; rw [h]; push_cast; ring

/-- What `time.Parse` returns on a well-shaped string. -/
theorem timeParse_shape (m1 m2 y1 y2 y3 y4 : Char)
    (hm1 : Spec.isDecimalDigit m1 = true) (hm2 : Spec.isDecimalDigit m2 = true)
    (hy1 : Spec.isDecimalDigit y1 = true) (hy2 : Spec.isDecimalDigit y2 = true)
    (hy3 : Spec.isDecimalDigit y3 = true) (hy4 : Spec.isDecimalDigit y4 = true)
    (hlo : 1 ≤ digitVal m1 * 10 + digitVal m2) (hhi : digitVal m1 * 10 + digitVal m2 ≤ 12) :
    timeParse [m1, m2, '-', y1, y2, y3, y4]
      = some (timeDateUTC
          ((digitVal y1 * 1000 + digitVal y2 * 100 + digitVal y3 * 10 + digitVal y4 : Nat) : Int)
          (digitVal m1 * 10 + digitVal m2) 1 0 0 0 0) := by
  have hg : getnum [m1, m2, '-', y1, y2, y3, y4] true
      = some (digitVal m1 * 10 + digitVal m2, ['-', y1, y2, y3, y4]) :=
    (getnum_fixed_eq_some _ _ _).2 ⟨m1, m2, rfl, hm1, hm2, rfl⟩
  have hs : skip ['-', y1, y2, y3, y4] ['-'] = some [y1, y2, y3, y4] :=
    (skip_dash_eq_some _ _).2 rfl
  have ha := (atoi_four y1 y2 y3 y4 hy1 _).2 ⟨hy2, hy3, hy4, rfl⟩
  unfold timeParse
  simp only [hg, hs]
  rw [if_neg (by omega)]
  simp only [List.length_cons, List.length_nil, isDigit_zero_cons, hy1, List.take, ha,
    List.drop]
  simp

/-- A string accepted by `time.Parse` has the shape `MM-YYYY`. -/
theorem timeParse_some_shape (l : List Char) (t : Time) (h : timeParse l = some t) :
    ∃ m1 m2 y1 y2 y3 y4, l = [m1, m2, '-', y1, y2, y3, y4]
      ∧ Spec.isDecimalDigit m1 = true ∧ Spec.isDecimalDigit m2 = true
      ∧ Spec.isDecimalDigit y1 = true ∧ Spec.isDecimalDigit y2 = true
      ∧ Spec.isDecimalDigit y3 = true ∧ Spec.isDecimalDigit y4 = true
      ∧ 1 ≤ digitVal m1 * 10 + digitVal m2 ∧ digitVal m1 * 10 + digitVal m2 ≤ 12 := by
  unfold timeParse at h
  cases hg : getnum l true with
  | none => simp [hg] at h
  | some r =>
    obtain ⟨month, v⟩ := r
    obtain ⟨m1, m2, hl, hm1, hm2, hmonth⟩ := (getnum_fixed_eq_some _ _ _).1 hg
    simp only [hg] at h
    by_cases hr : month ≤ 0 ∨ 12 < month
    · rw [if_pos hr] at h; exact absurd h (by simp)
    rw [if_neg hr] at h
    cases hs : skip v ['-'] with
    | none => simp [hs] at h
    | some w =>
      have hv := (skip_dash_eq_some _ _).1 hs
      simp only [hs] at h
      rcases w with _ | ⟨y1, _ | ⟨y2, _ | ⟨y3, _ | ⟨y4, tl⟩⟩⟩⟩
      · simp at h
      · simp at h
      · simp at h
      · simp at h
      · cases hy1 : Spec.isDecimalDigit y1 with
        | false => simp [isDigit_zero_cons, hy1] at h
        | true =>
          simp only [List.length_cons, isDigit_zero_cons, hy1, List.take, List.drop] at h
          cases ha : atoi [y1, y2, y3, y4] with
          | none => simp [ha] at h
          | some year =>
            obtain ⟨hy2, hy3, hy4, _⟩ := (atoi_four y1 y2 y3 y4 hy1 year).1 ha
            rcases tl with _ | ⟨e, tl⟩
            · refine ⟨m1, m2, y1, y2, y3, y4, ?_, hm1, hm2, hy1, hy2, hy3, hy4, ?_, ?_⟩
              · rw [hl, hv]
              · omega
              · omega
            · simp [ha] at h

theorem digitChar_digitVal (c : Char) (hc : Spec.isDecimalDigit c = true) :
    digitChar (digitVal c) = c := by
  simp only [Spec.isDecimalDigit, Bool.and_eq_true, decide_eq_true_eq] at hc
  have h0 : '0'.toNat = 48 := rfl
  simp only [digitChar, digitVal, h0]
  have : 48 + (c.toNat - 48) % 10 = c.toNat := by omega
  rw [this, Char.ofNat_toNat]

theorem digitChar_of_eq (n d : Nat) (c : Char) (hc : Spec.isDecimalDigit c = true)
    (hd : d = digitVal c) (hn : n % 10 = d) : digitChar n = c := by
  rw [← digitChar_digitVal c hc, ← hd, ← hn]
  simp [digitChar]

theorem appendInt_two (u : Nat) (hu : u < 100) :
    appendInt (u : Int) 2 = [digitChar (u / 10), digitChar u] := by
  have hneg : ¬ ((u : Int) < 0) := by omega
  simp only [appendInt, Int.natAbs_ofNat, hneg, if_false, List.nil_append]
  by_cases h : u ≥ 10
  · have h2 : ¬ (u / 10 ≥ 10) := by omega
    simp only [appendIntLoop, h, h2, if_true, if_false, List.length_cons, List.length_nil]
    simp [digitChar]
  · have h0 : u / 10 = 0 := by omega
    simp only [appendIntLoop, h, if_false, List.length_cons, List.length_nil, h0]
    rfl

theorem appendInt_four (u : Nat) (hu : u < 10000) :
    appendInt (u : Int) 4
      = [digitChar (u / 1000), digitChar (u / 100), digitChar (u / 10), digitChar u] := by
  have hneg : ¬ ((u : Int) < 0) := by omega
  have e0 : digitChar 0 = '0' := rfl
  simp only [appendInt, Int.natAbs_ofNat, hneg, if_false, List.nil_append]
  by_cases h1 : u ≥ 10
  · by_cases h2 : u / 10 ≥ 10
    · by_cases h3 : u / 10 / 10 ≥ 10
      · have h4 : ¬ (u / 10 / 10 / 10 ≥ 10) := by omega
        have d3 : u / 10 / 10 = u / 100 := by omega
        have d4 : u / 10 / 10 / 10 = u / 1000 := by omega
        simp only [appendIntLoop, h1, h2, h3, h4, if_true, if_false, List.length_cons,
          List.length_nil]
        simp [digitChar, Nat.div_div_eq_div_mul]
      · have d3 : u / 10 / 10 = u / 100 := by omega
        have d4 : u / 1000 = 0 := by omega
        simp only [appendIntLoop, h1, h2, h3, if_true, if_false, List.length_cons,
          List.length_nil, d4, e0]
        simp [digitChar, Nat.div_div_eq_div_mul]
    · have d3 : u / 100 = 0 := by omega
      have d4 : u / 1000 = 0 := by omega
      simp only [appendIntLoop, h1, h2, if_true, if_false, List.length_cons,
        List.length_nil, d3, d4, e0]
      simp [digitChar]
  · have d2 : u / 10 = 0 := by omega
    have d3 : u / 100 = 0 := by omega
    have d4 : u / 1000 = 0 := by omega
    simp only [appendIntLoop, h1, if_false, List.length_cons, List.length_nil, d2, d3, d4, e0]
    rfl

theorem decimalValue_two (a b : Char) :
    Spec.decimalValue [a, b] = digitVal a * 10 + digitVal b := by
  have h0 : '0'.toNat = 48 := rfl
  simp [Spec.decimalValue, digitVal, h0]

theorem decimalValue_four (a b c d : Char) :
    Spec.decimalValue [a, b, c, d]
      = digitVal a * 1000 + digitVal b * 100 + digitVal c * 10 + digitVal d := by
  have h0 : '0'.toNat = 48 := rfl
  simp only [Spec.decimalValue, digitVal, h0, List.foldl]
  ring

theorem isMonthString_iff (s : String) :
    Spec.isMonthString s = true ↔
      ∃ m1 m2 y1 y2 y3 y4, s.toList = [m1, m2, '-', y1, y2, y3, y4]
        ∧ Spec.isDecimalDigit m1 = true ∧ Spec.isDecimalDigit m2 = true
        ∧ Spec.isDecimalDigit y1 = true ∧ Spec.isDecimalDigit y2 = true
        ∧ Spec.isDecimalDigit y3 = true ∧ Spec.isDecimalDigit y4 = true
        ∧ 1 ≤ digitVal m1 * 10 + digitVal m2 ∧ digitVal m1 * 10 + digitVal m2 ≤ 12 := by
  unfold Spec.isMonthString
  constructor
  · intro h
    split at h
    · rename_i m1 m2 sep y1 y2 y3 y4 hl
      simp only [Bool.and_eq_true, decide_eq_true_eq, beq_iff_eq, decimalValue_two] at h
      obtain ⟨⟨⟨⟨⟨⟨⟨⟨a1, a2⟩, a3⟩, a4⟩, a5⟩, a6⟩, a7⟩, a8⟩, a9⟩ := h
      subst a3
      exact ⟨m1, m2, y1, y2, y3, y4, hl, a1, a2, a4, a5, a6, a7, a8, a9⟩
    · exact absurd h (by simp)
  · rintro ⟨m1, m2, y1, y2, y3, y4, hl, a1, a2, a4, a5, a6, a7, a8, a9⟩
    rw [hl]
    simp only [a1, a2, a4, a5, a6, a7, decimalValue_two, a8, a9, beq_self_eq_true,
      Bool.and_self, decide_True]

/-- The equation of `parseMonth`: success exactly on the shape `MM-YYYY`, with
the month and year written in the string. -/
theorem parseMonth_eq (s : String) :
    parseMonth s
      = if Spec.isMonthString s = true then
          .ok (timeDateUTC (Spec.writtenYear s) (Spec.writtenMonth s) 1 0 0 0 0)
        else .error .invalidFormat := by
  by_cases h : Spec.isMonthString s = true
  · rw [if_pos h]
    obtain ⟨m1, m2, y1, y2, y3, y4, hl, a1, a2, a4, a5, a6, a7, a8, a9⟩ :=
      (isMonthString_iff s).1 h
    simp only [parseMonth, hl, timeParse_shape m1 m2 y1 y2 y3 y4 a1 a2 a4 a5 a6 a7 a8 a9,
      Spec.writtenYear, Spec.writtenMonth, List.take, List.drop, decimalValue_two,
      decimalValue_four, timeDateUTC]
  · rw [if_neg h]
    cases hp : timeParse s.toList with
    | none => unfold parseMonth; rw [hp]
    | some t =>
      exact absurd ((isMonthString_iff s).2 (timeParse_some_shape _ t hp)) h

/-- Re-serialising the parsed month gives the string back. -/
theorem formatMonth_written (s : String) (h : Spec.isMonthString s = true) :
    formatMonth (timeDateUTC (Spec.writtenYear s) (Spec.writtenMonth s) 1 0 0 0 0) = s := by
  obtain ⟨m1, m2, y1, y2, y3, y4, hl, a1, a2, a4, a5, a6, a7, a8, a9⟩ :=
    (isMonthString_iff s).1 h
  have b1 := digitVal_le m1 a1
  have b2 := digitVal_le m2 a2
  have c1 := digitVal_le y1 a4
  have c2 := digitVal_le y2 a5
  have c3 := digitVal_le y3 a6
  have c4 := digitVal_le y4 a7
  have hs : s = String.mk [m1, m2, '-', y1, y2, y3, y4] := by
    cases s; simp only [String.toList] at hl; rw [hl]
  simp only [formatMonth, timeDateUTC, Spec.writtenYear, Spec.writtenMonth, hl, List.take,
    List.drop, decimalValue_two, decimalValue_four]
  rw [appendInt_two _ (by omega), appendInt_four _ (by omega), hs]
  congr 1
  simp only [List.cons_append, List.nil_append]
  rw [digitChar_of_eq _ _ m1 a1 rfl (by omega), digitChar_of_eq _ _ m2 a2 rfl (by omega),
    digitChar_of_eq _ _ y1 a4 rfl (by omega), digitChar_of_eq _ _ y2 a5 rfl (by omega),
    digitChar_of_eq _ _ y3 a6 rfl (by omega), digitChar_of_eq _ _ y4 a7 rfl (by omega)]

/-! ## Lemmas on the SQL evaluation -/

theorem seriesLoop_length (stop : Int) (fuel : Nat) (cur : Int) :
    (seriesLoop stop fuel cur).length = min fuel (stop - cur + 1).toNat := by
  induction fuel generalizing cur with
  | zero => simp [seriesLoop]
  | succ n ih =>
    unfold seriesLoop
    split
    · rw [List.length_cons, ih]; omega
    · simp only [List.length_nil]; omega

theorem generate_series_length (start stop : Int) :
    (generate_series start stop).length = (stop - start + 1).toNat := by
  simp [generate_series, seriesLoop_length]

theorem mem_seriesLoop (stop : Int) (fuel : Nat) (cur m : Int)
    (hf : (stop - cur + 1).toNat ≤ fuel) :
    m ∈ seriesLoop stop fuel cur ↔ cur ≤ m ∧ m ≤ stop := by
  induction fuel generalizing cur with
  | zero => simp [seriesLoop]; omega
  | succ n ih =>
    unfold seriesLoop
    split
    · rw [List.mem_cons, ih (cur + 1) (by omega)]; omega
    · simp only [List.not_mem_nil, false_iff]; omega

/-- The series holds exactly the months from `start` to `stop`. -/
theorem mem_generate_series (start stop m : Int) :
    m ∈ generate_series start stop ↔ start ≤ m ∧ m ≤ stop :=
  mem_seriesLoop stop _ start m (le_refl _)

theorem generate_series_length_eq (start stop : Int) :
    ((generate_series start stop).length : Int) = Spec.monthsInclusive start stop := by
  rw [generate_series_length, Spec.monthsInclusive]
  split <;> omega

theorem sqlSum_getD (xs : List Int) : (sqlSum xs).getD 0 = xs.sum := by
  cases xs <;> simp [sqlSum]

/-- Grouping by key and weighting each key by its `COUNT(*)` sums the same as
the ungrouped rows. -/
theorem sum_dedup_count {α : Type} [DecidableEq α] (f : α → Int) (l : List α) :
    (l.dedup.map fun k => f k * ((l.filter fun r => decide (r = k)).length : Int)).sum
      = (l.map f).sum := by
  have hc : ∀ k, (l.filter fun r => decide (r = k)).length = l.count k := by
    intro k
    rw [List.count, List.countP_eq_length_filter]
    congr 2
  simp only [hc]
  have hd : l.dedup.toFinset = l.toFinset := by ext; simp
  rw [Finset.sum_list_map_count l f,
    ← List.sum_toFinset (fun k => f k * (l.count k : Int)) (List.nodup_dedup l), hd]
  refine Finset.sum_congr rfl fun k _ => ?_
  simp [mul_comm]

theorem selectTotal_expCTE (subs : List Subscription) (p : Period) :
    selectTotal (expCTE subs p) = ((expJoin subs p).map fun k => k.2).sum := by
  simp only [selectTotal, expCTE, sqlSum_getD, List.map_map]
  rw [← sum_dedup_count (fun k => k.2) (expJoin subs p)]
  rfl

theorem sum_expJoin (subs : List Subscription) (p : Period) :
    ((expJoin subs p).map fun k => k.2).sum
      = (subs.map fun s => s.Price *
          Spec.monthsInclusive (max (date_trunc_month s.StartDate) p.from_m)
            (min (truncEndOr s p.to_m) p.to_m)).sum := by
  induction subs with
  | nil => simp [expJoin]
  | cons s rest ih =>
    have ih2 := ih
    simp only [expJoin] at ih2 ⊢
    simp only [List.flatMap_cons, List.map_append, List.sum_append, List.map_cons,
      List.sum_cons, ih2, List.map_map]
    congr 1
    rw [← generate_series_length_eq]
    generalize generate_series _ _ = l
    induction l with
    | nil => simp
    | cons a l ihl => simp only [List.map_cons, List.sum_cons, Function.comp, List.length_cons] at ihl ⊢; rw [ihl]; push_cast; ring

theorem truncEndOr_eq (s : Subscription) (to_m : Int) :
    truncEndOr s to_m = Spec.end_month_or s to_m := by
  cases s with
  | mk i n pr u st e => cases e <;> rfl

theorem filter_clause_eq (arg value : String) :
    (arg == "" || value == arg)
      = (match filterArg arg with
          | none => true
          | some u => value == u) := by
  unfold filterArg
  by_cases h : arg = "" <;> simp [h]

/-- The SQL total is the reference total of the specification. -/
theorem totalForPeriod_eq_reference (rows : List Subscription)
    (userID serviceName : String) (fromT toT : Time) :
    TotalForPeriod rows userID serviceName fromT toT
      = Spec.sumPricesForOverlap rows (filterArg userID) (filterArg serviceName)
          (date_trunc_month fromT) (date_trunc_month toT) := by
  simp only [TotalForPeriod, selectTotal_expCTE, sum_expJoin, Spec.sumPricesForOverlap,
    Spec.selectCandidates, Spec.overlap_month_count, Spec.overlap_start, Spec.overlap_end,
    truncEndOr_eq, periodCTE, timeDateUTC, date_trunc_month, Spec.start_month]
  congr 2
  unfold subsCTE
  congr 1
  funext s
  simp only [Spec.passesFilters, Spec.isCandidate, ← filter_clause_eq, truncEndOr_eq,
    date_trunc_month, Spec.start_month]
  cases decide (s.StartDate.year * 12 + ((s.StartDate.month : Int) - 1)
      ≤ toT.year * 12 + ((toT.month : Int) - 1)) <;>
    cases decide (Spec.end_month_or s (toT.year * 12 + ((toT.month : Int) - 1))
      ≥ fromT.year * 12 + ((fromT.month : Int) - 1)) <;>
    cases (userID == "" || s.UserID == userID) <;>
    cases (serviceName == "" || s.ServiceName == serviceName) <;> rfl

/-! ## Lemmas on the total: contributions of single rows -/

theorem totalForPeriod_append (a b : List Subscription) (userID serviceName : String)
    (fromT toT : Time) :
    TotalForPeriod (a ++ b) userID serviceName fromT toT
      = TotalForPeriod a userID serviceName fromT toT
        + TotalForPeriod b userID serviceName fromT toT := by
  simp only [totalForPeriod_eq_reference, Spec.sumPricesForOverlap, Spec.selectCandidates,
    List.filter_append, List.map_append, List.sum_append]

theorem totalForPeriod_nil (userID serviceName : String) (fromT toT : Time) :
    TotalForPeriod [] userID serviceName fromT toT = 0 := by
  simp [totalForPeriod_eq_reference, Spec.sumPricesForOverlap, Spec.selectCandidates]

/-- Taking one row out of the table takes its contribution out of the total. -/
theorem totalForPeriod_insert (pre post : List Subscription) (s : Subscription)
    (userID serviceName : String) (fromT toT : Time) :
    TotalForPeriod (pre ++ s :: post) userID serviceName fromT toT
      = TotalForPeriod (pre ++ post) userID serviceName fromT toT
        + contribution s userID serviceName fromT toT := by
  have h : pre ++ s :: post = pre ++ ([s] ++ post) := rfl
  rw [h, totalForPeriod_append, totalForPeriod_append, totalForPeriod_append, contribution]
  ring

theorem passesFilters_iff (userID serviceName : String) (s : Subscription) :
    Spec.passesFilters (filterArg userID) (filterArg serviceName) s = true
      ↔ (userID = "" ∨ s.UserID = userID) ∧ (serviceName = "" ∨ s.ServiceName = serviceName) := by
  simp only [Spec.passesFilters, ← filter_clause_eq, Bool.and_eq_true, Bool.or_eq_true,
    beq_iff_eq]

/-- The contribution of one row: `price × months` when it passes the filters
and is a candidate, else nothing. -/
theorem contribution_eq (s : Subscription) (userID serviceName : String) (fromT toT : Time) :
    contribution s userID serviceName fromT toT
      = if Spec.passesFilters (filterArg userID) (filterArg serviceName) s = true
            ∧ Spec.isCandidate s (date_trunc_month fromT) (date_trunc_month toT) = true then
          s.Price * Spec.overlap_month_count s (date_trunc_month fromT) (date_trunc_month toT)
        else 0 := by
  simp only [contribution, totalForPeriod_eq_reference, Spec.sumPricesForOverlap,
    Spec.selectCandidates, List.filter_cons, List.filter_nil, Bool.and_eq_true]
  split <;> simp

theorem overlap_nonneg (s : Subscription) (from_m to_m : Int) :
    0 ≤ Spec.overlap_month_count s from_m to_m := by
  simp only [Spec.overlap_month_count, Spec.monthsInclusive]
  split <;> omega

theorem sumPricesForOverlap_nonneg (rows : List Subscription)
    (userFilter serviceFilter : Option String) (from_m to_m : Int)
    (hp : ∀ s ∈ rows, 0 ≤ s.Price) :
    0 ≤ Spec.sumPricesForOverlap rows userFilter serviceFilter from_m to_m := by
  unfold Spec.sumPricesForOverlap
  apply List.sum_nonneg
  intro x hx
  obtain ⟨s, hs, rfl⟩ := List.mem_map.1 hx
  have hmem : s ∈ rows := (List.mem_filter.1 hs).1
  exact mul_nonneg (hp s hmem) (overlap_nonneg s from_m to_m)

/-- A row whose overlap interval is empty adds nothing, candidate or not. -/
theorem contribution_empty_overlap (s : Subscription) (userID serviceName : String)
    (fromT toT : Time)
    (h : min (Spec.end_month_or s (date_trunc_month toT)) (date_trunc_month toT)
          < max (Spec.start_month s) (date_trunc_month fromT)) :
    contribution s userID serviceName fromT toT = 0 := by
  rw [contribution_eq]
  split
  · simp only [Spec.overlap_month_count, Spec.overlap_start, Spec.overlap_end,
      Spec.monthsInclusive, if_pos h, mul_zero]
  · rfl

theorem totalForPeriod_inverted (rows : List Subscription) (userID serviceName : String)
    (fromT toT : Time) (h : date_trunc_month toT < date_trunc_month fromT) :
    TotalForPeriod rows userID serviceName fromT toT = 0 := by
  induction rows with
  | nil => exact totalForPeriod_nil _ _ _ _
  | cons s rest ih =>
    have h2 := totalForPeriod_insert [] rest s userID serviceName fromT toT
    simp only [List.nil_append] at h2
    rw [h2, ih, contribution_empty_overlap s _ _ _ _ (by omega)]
    rfl

/-- The contribution of an open-ended row that passes the filters and has
started by the end of the window. -/
theorem contribution_open_ended (s : Subscription) (userID serviceName : String)
    (fromT toT : Time) (hend : s.EndDate = none)
    (hw : date_trunc_month fromT ≤ date_trunc_month toT)
    (hstart : date_trunc_month s.StartDate ≤ date_trunc_month toT)
    (hu : userID = "" ∨ s.UserID = userID)
    (hn : serviceName = "" ∨ s.ServiceName = serviceName) :
    contribution s userID serviceName fromT toT
      = s.Price * (date_trunc_month toT
          - max (date_trunc_month s.StartDate) (date_trunc_month fromT) + 1) := by
  rw [contribution_eq]
  have hp := (passesFilters_iff userID serviceName s).2 ⟨hu, hn⟩
  have he : ∀ t, Spec.end_month_or s t = t := by
    intro t; simp only [Spec.end_month_or, hend]
  have hs : Spec.start_month s = date_trunc_month s.StartDate := rfl
  have hc : Spec.isCandidate s (date_trunc_month fromT) (date_trunc_month toT) = true := by
    simp only [Spec.isCandidate, he, hs, Bool.and_eq_true, decide_eq_true_eq]
    exact ⟨hstart, hw⟩
  rw [if_pos ⟨hp, hc⟩]
  simp only [Spec.overlap_month_count, Spec.overlap_start, Spec.overlap_end, he, hs,
    Spec.monthsInclusive, min_self]
  rw [if_neg (by omega)]

/-! ## Lemmas on the table -/

theorem find_map_replace (rows : List Subscription) (id : String) (ex merged : Subscription)
    (hex : rows.find? (fun r => r.ID == id) = some ex) (hid : merged.ID = id) :
    (rows.map fun r => if r.ID == id then merged else r).find? (fun r => r.ID == id)
      = some merged := by
  induction rows with
  | nil => simp at hex
  | cons r rest ih =>
    by_cases hr : r.ID = id
    · simp [List.find?, hr, hid]
    · have hne : (r.ID == id) = false := by simpa using hr
      simp only [List.find?, hne] at hex
      simp only [List.map_cons, hne, List.find?, Bool.false_eq_true, if_false]
      exact ih hex

theorem find_some_id (rows : List Subscription) (id : String) (ex : Subscription)
    (hex : rows.find? (fun r => r.ID == id) = some ex) : ex.ID = id ∧ ex ∈ rows := by
  have h1 := List.find?_some hex
  exact ⟨by simpa using h1, List.mem_of_find?_eq_some hex⟩

/-! ## The aggregation: refinement and scenarios -/

/-- C1. For every table of subscriptions, every pair of filter arguments and
every window, the total computed by the SQL of `TotalForPeriod` (month-series
expansion, grouping by `(id, price)`, `COUNT(*)`, `COALESCE(SUM(..), 0)`)
equals the in-process reference of the specification: the sum over the rows
passing the equality filters and the candidate predicate of
`price × overlap_month_count`; `service.Total` returns the same value. -/
theorem totalForPeriod_refines_reference (rows : List Subscription)
    (userID serviceName : String) (fromT toT : Time) :
    TotalForPeriod rows userID serviceName fromT toT
        = Spec.sumPricesForOverlap rows (filterArg userID) (filterArg serviceName)
            (date_trunc_month fromT) (date_trunc_month toT)
      ∧ Total rows ⟨userID, serviceName, fromT, toT⟩
        = Spec.sumPricesForOverlap rows (filterArg userID) (filterArg serviceName)
            (date_trunc_month fromT) (date_trunc_month toT) := by
  refine ⟨totalForPeriod_eq_reference rows userID serviceName fromT toT, ?_⟩
  simp only [Total, totalForPeriod_eq_reference]
  rfl

/-- C2. A subscription with no end date that passes the filters, in a window
`from_m ≤ to_m` with `start_month ≤ to_m`, adds exactly
`price × (to_m − max(start_month, from_m) + 1)` to the total of any table it
is stored in: its open end is the upper bound of the window. -/
theorem open_ended_contribution (pre post : List Subscription) (s : Subscription)
    (userID serviceName : String) (fromT toT : Time)
    (hend : s.EndDate = none)
    (hw : date_trunc_month fromT ≤ date_trunc_month toT)
    (hstart : date_trunc_month s.StartDate ≤ date_trunc_month toT)
    (hu : userID = "" ∨ s.UserID = userID)
    (hn : serviceName = "" ∨ s.ServiceName = serviceName) :
    TotalForPeriod (pre ++ s :: post) userID serviceName fromT toT
      = TotalForPeriod (pre ++ post) userID serviceName fromT toT
        + s.Price * (date_trunc_month toT
            - max (date_trunc_month s.StartDate) (date_trunc_month fromT) + 1) := by
  rw [totalForPeriod_insert,
    contribution_open_ended s userID serviceName fromT toT hend hw hstart hu hn]

/-- Scenario B: the open-ended subscription starting 07-2025 at price 100
totals 200 over the window 06-2025..08-2025. -/
theorem open_ended_contribution_scenarioB :
    TotalForPeriod [scenarioB] "" "" (ym 6 2025) (ym 8 2025) = 200 :=
  (open_ended_contribution [] [] scenarioB "" "" (ym 6 2025) (ym 8 2025) rfl
    (by decide) (by decide) (Or.inl rfl) (Or.inl rfl)).trans (by decide)

/-- C3. With a single stored subscription and a window `from_m ≤ to_m`: if the
subscription passes the filters and contains the window (`start_month ≤ from_m`
and no end date or `end_month ≥ to_m`) the total is
`price × (to_m − from_m + 1)`; if it lies outside the window
(`end_month < from_m` or `start_month > to_m`) the total is 0. -/
theorem single_subscription_total (s : Subscription) (userID serviceName : String)
    (fromT toT : Time) (hw : date_trunc_month fromT ≤ date_trunc_month toT) :
    ((userID = "" ∨ s.UserID = userID) → (serviceName = "" ∨ s.ServiceName = serviceName) →
      date_trunc_month s.StartDate ≤ date_trunc_month fromT →
      (s.EndDate = none ∨ ∃ e, s.EndDate = some e ∧ date_trunc_month toT ≤ date_trunc_month e) →
      TotalForPeriod [s] userID serviceName fromT toT
        = s.Price * (date_trunc_month toT - date_trunc_month fromT + 1))
    ∧ (((∃ e, s.EndDate = some e ∧ date_trunc_month e < date_trunc_month fromT)
          ∨ date_trunc_month toT < date_trunc_month s.StartDate) →
      TotalForPeriod [s] userID serviceName fromT toT = 0) := by
  have hs : Spec.start_month s = date_trunc_month s.StartDate := rfl
  have hT : TotalForPeriod [s] userID serviceName fromT toT
      = contribution s userID serviceName fromT toT := rfl
  constructor
  · intro hu hn hstart hend
    have hp := (passesFilters_iff userID serviceName s).2 ⟨hu, hn⟩
    have he : date_trunc_month toT ≤ Spec.end_month_or s (date_trunc_month toT) := by
      rcases hend with h | ⟨e, h, hle⟩
      · simp only [Spec.end_month_or, h]; exact le_refl _
      · simp only [Spec.end_month_or, h]; exact hle
    have hc : Spec.isCandidate s (date_trunc_month fromT) (date_trunc_month toT) = true := by
      simp only [Spec.isCandidate, hs, Bool.and_eq_true, decide_eq_true_eq]
      omega
    rw [hT, contribution_eq, if_pos ⟨hp, hc⟩]
    simp only [Spec.overlap_month_count, Spec.overlap_start, Spec.overlap_end, hs,
      Spec.monthsInclusive]
    rw [if_neg (by omega)]
    congr 1
    omega
  · intro hout
    rw [hT, contribution_eq]
    split
    · rename_i h
      rcases hout with ⟨e, h2, hlt⟩ | hlt
      · have he : Spec.end_month_or s (date_trunc_month toT) = date_trunc_month e := by
          simp only [Spec.end_month_or, h2]; rfl
        have hc := h.2
        simp only [Spec.isCandidate, he, Bool.and_eq_true, decide_eq_true_eq] at hc
        omega
      · have hc := h.2
        simp only [Spec.isCandidate, hs, Bool.and_eq_true, decide_eq_true_eq] at hc
        omega
    · rfl

/-- Scenario A (07-2025..09-2025 at 300 over the same window) totals 900 and
scenario C (01-2025..02-2025 at 50 over 06-2025..07-2025) totals 0. -/
theorem single_subscription_total_scenarios :
    TotalForPeriod [scenarioA] "" "" (ym 7 2025) (ym 9 2025) = 900
      ∧ TotalForPeriod [scenarioC] "" "" (ym 6 2025) (ym 7 2025) = 0 :=
  ⟨((single_subscription_total scenarioA "" "" (ym 7 2025) (ym 9 2025) (by decide)).1
      (Or.inl rfl) (Or.inl rfl) (by decide) (Or.inr ⟨ym 9 2025, rfl, by decide⟩)).trans
      (by decide),
    (single_subscription_total scenarioC "" "" (ym 6 2025) (ym 7 2025) (by decide)).2
      (Or.inl ⟨ym 2 2025, rfl, by decide⟩)⟩

/-! ## The month parser and the CRUD operations -/

/-- C4. `parseMonth` succeeds exactly on the strings of shape `MM-YYYY` (two
decimal digits forming a month in 01..12, `-`, four decimal digits, nothing
else) and returns an error on every other string; on success the result is
day 1, 00:00:00 UTC of the year and month written in the string, and
formatting it as `MM-YYYY` gives the string back. -/
theorem parseMonth_accepts_exactly_MM_YYYY (s : String) :
    ((∃ t, parseMonth s = .ok t) ↔ Spec.isMonthString s = true)
    ∧ (Spec.isMonthString s = false → parseMonth s = .error .invalidFormat)
    ∧ (∀ t, parseMonth s = .ok t →
        t = timeDateUTC (Spec.writtenYear s) (Spec.writtenMonth s) 1 0 0 0 0
          ∧ formatMonth t = s) := by
  have heq := parseMonth_eq s
  by_cases h : Spec.isMonthString s = true
  · rw [if_pos h] at heq
    refine ⟨⟨fun _ => h, fun _ => ⟨_, heq⟩⟩, fun hf => absurd h (by simp [hf]), ?_⟩
    intro t ht
    rw [heq] at ht
    have ht2 := Except.ok.inj ht
    subst ht2
    exact ⟨rfl, formatMonth_written s h⟩
  · rw [if_neg h] at heq
    refine ⟨⟨?_, fun h2 => absurd h2 h⟩, fun _ => heq, ?_⟩
    · rintro ⟨t, ht⟩
      rw [heq] at ht
      exact Except.noConfusion ht
    · intro t ht
      rw [heq] at ht
      exact Except.noConfusion ht

/-- The string `07-2025` parses to 1 July 2025, 00:00:00 UTC, and formats back to
`07-2025`; a wrong separator, month 00, month 13, a one-digit month,
non-numeric text and trailing text are errors. -/
theorem parseMonth_accepts_exactly_MM_YYYY_sample :
    parseMonth "07-2025" = .ok ⟨2025, 7, 1, 0, 0, 0, 0, true⟩
      ∧ formatMonth ⟨2025, 7, 1, 0, 0, 0, 0, true⟩ = "07-2025"
      ∧ parseMonth "07/2025" = .error .invalidFormat
      ∧ parseMonth "00-2025" = .error .invalidFormat
      ∧ parseMonth "13-2025" = .error .invalidFormat
      ∧ parseMonth "7-2025" = .error .invalidFormat
      ∧ parseMonth "ab-cdef" = .error .invalidFormat
      ∧ parseMonth "07-2025 " = .error .invalidFormat :=
  ⟨by decide,
    ((parseMonth_accepts_exactly_MM_YYYY "07-2025").2.2 ⟨2025, 7, 1, 0, 0, 0, 0, true⟩
      (by decide)).2,
    (parseMonth_accepts_exactly_MM_YYYY "07/2025").2.1 (by decide),
    (parseMonth_accepts_exactly_MM_YYYY "00-2025").2.1 (by decide),
    (parseMonth_accepts_exactly_MM_YYYY "13-2025").2.1 (by decide),
    (parseMonth_accepts_exactly_MM_YYYY "7-2025").2.1 (by decide),
    (parseMonth_accepts_exactly_MM_YYYY "ab-cdef").2.1 (by decide),
    (parseMonth_accepts_exactly_MM_YYYY "07-2025 ").2.1 (by decide)⟩

/-- C5. Whenever `service.Update` returns an error, the table is unchanged
and a lookup of the id gives what it gave before.  On every error of the
service itself and of the lookup (negative price, malformed start or end date,
unknown id; every error but the rejection of the write by the database) the
only repository call of that request is the `Get` of the id: no `repo.Update`
is made. -/
theorem update_error_leaves_store_unchanged (st : Store) (id : String) (inp : UpdateDTO)
    (err : Error) (st' : Store)
    (h : Service.Update st id inp = (.error err, st')) :
    st'.rows = st.rows
      ∧ (err ≠ .storeFailure → st'.calls = st.calls ++ [RepoCall.get id])
      ∧ (err ≠ .storeFailure → ∀ s, RepoCall.update s ∈ st'.calls → RepoCall.update s ∈ st.calls)
      ∧ (Repository.Get st' id).1 = (Repository.Get st id).1 := by
  have key : st' = { st with calls := st.calls ++ [RepoCall.get id] }
      ∨ (err = .storeFailure ∧ st'.rows = st.rows) := by
    unfold Service.Update at h
    cases hfind : st.rows.find? fun r => r.ID == id with
    | none =>
      simp only [Repository.Get, hfind, Prod.mk.injEq] at h
      exact Or.inl h.2.symm
    | some ex =>
      simp only [Repository.Get, hfind] at h
      split at h
      · exact Or.inl (Prod.mk.inj h).2.symm
      · rename_i ex2 _
        by_cases hc : Repository.columnsAccept ex2 = true
        · simp only [Repository.Update, hc, if_true] at h
          exact absurd (Prod.mk.inj h).1 (by simp)
        · simp only [Repository.Update, hc, Bool.false_eq_true, if_false] at h
          obtain ⟨h1, h2⟩ := Prod.mk.inj h
          refine Or.inr ⟨(Except.error.inj h1).symm, ?_⟩
          rw [← h2]
  have hget : ∀ (a b : Store), a.rows = b.rows →
      (Repository.Get a id).1 = (Repository.Get b id).1 := by
    intro a b hab
    simp only [Repository.Get, hab]
    cases b.rows.find? fun r => r.ID == id <;> rfl
  rcases key with key | ⟨hsf, hrows⟩
  · subst key
    refine ⟨rfl, fun _ => rfl, ?_, hget _ _ rfl⟩
    intro _ s hs
    simpa using hs
  · exact ⟨hrows, fun hne => absurd hsf hne, fun hne => absurd hsf hne, hget _ _ hrows⟩

/-- The month-parse error in `service.Update`, at the end date, with the name
and the price already merged: nothing is written and `repo.Get` is the only
call. -/
theorem update_error_leaves_store_unchanged_sample :
    Service.Update ⟨[scenarioA, scenarioB], []⟩ scenarioA.ID
        ⟨some "Yandex Plus Premium", some 500, some "08-2025", some "10/2025"⟩
      = (.error .invalidEndDate, ⟨[scenarioA, scenarioB], [.get scenarioA.ID]⟩)
    ∧ (⟨[scenarioA, scenarioB], [.get scenarioA.ID]⟩ : Store).rows = [scenarioA, scenarioB]
    ∧ (⟨[scenarioA, scenarioB], [.get scenarioA.ID]⟩ : Store).calls
        = [] ++ [RepoCall.get scenarioA.ID] :=
  ⟨by decide,
    (update_error_leaves_store_unchanged ⟨[scenarioA, scenarioB], []⟩ scenarioA.ID
      ⟨some "Yandex Plus Premium", some 500, some "08-2025", some "10/2025"⟩
      .invalidEndDate ⟨[scenarioA, scenarioB], [.get scenarioA.ID]⟩ (by decide)).1,
    (update_error_leaves_store_unchanged ⟨[scenarioA, scenarioB], []⟩ scenarioA.ID
      ⟨some "Yandex Plus Premium", some 500, some "08-2025", some "10/2025"⟩
      .invalidEndDate ⟨[scenarioA, scenarioB], [.get scenarioA.ID]⟩ (by decide)).2.1
      (by decide)⟩

/-- C6, as stated, fails.  A request that passes every check of
`service.Update` is not always persisted: on the existing scenario A, the
price 2147483648 (one above the largest value of the `type:int` column) and a
`service_name` holding a NUL character (which the `type:text` column does not
take) both make `db.Save` fail, so `service.Update` returns an error and the
row stays as it was. -/
theorem update_rejected_by_column_types :
    Service.Update ⟨[scenarioA], []⟩ scenarioA.ID ⟨none, some 2147483648, none, none⟩
        = (.error .storeFailure,
            ⟨[scenarioA], [RepoCall.get scenarioA.ID,
              RepoCall.update { scenarioA with Price := 2147483648 }]⟩)
      ∧ Service.Update ⟨[scenarioA], []⟩ scenarioA.ID
          ⟨some (String.mk [Char.ofNat 0]), none, none, none⟩
        = (.error .storeFailure,
            ⟨[scenarioA], [RepoCall.get scenarioA.ID,
              RepoCall.update { scenarioA with ServiceName := String.mk [Char.ofNat 0] }]⟩) := by
  decide

/-- C6, amended.  For an existing subscription, stored with values its columns
take, and a valid request whose values the columns take (a present price is
between 0 and 2147483647, a present service name has no NUL character, a
present start date is an `MM-YYYY` string, a present end date is empty or an
`MM-YYYY` string) `service.Update` succeeds and persists the existing entity
with each of `service_name`, `price`, `start_date`, `end_date` that is present
overwritten by the (parsed) value of the request; absent fields, `id` and
`user_id` keep their values; an empty `end_date` sets the end date to null,
and the entity then counts in every later total as open-ended: through the
upper bound of the window. -/
theorem update_merges_present_fields (st : Store) (id : String) (inp : UpdateDTO)
    (ex : Subscription)
    (hex : st.rows.find? (fun r => r.ID == id) = some ex)
    (hrow : Repository.columnsAccept ex = true)
    (hname : ∀ n, inp.ServiceName = some n → Repository.textAccepts n = true)
    (hprice : ∀ p, inp.Price = some p → 0 ≤ p ∧ p ≤ 2147483647)
    (hstart : ∀ m, inp.StartMonth = some m → Spec.isMonthString m = true)
    (hend : ∀ m, inp.EndMonth = some m → m = "" ∨ Spec.isMonthString m = true) :
    ∃ merged st', Service.Update st id inp = (.ok merged, st')
      ∧ merged.ID = ex.ID ∧ merged.UserID = ex.UserID
      ∧ merged.ServiceName = inp.ServiceName.getD ex.ServiceName
      ∧ merged.Price = inp.Price.getD ex.Price
      ∧ merged.StartDate
          = (match inp.StartMonth with
            | none => ex.StartDate
            | some m => timeDateUTC (Spec.writtenYear m) (Spec.writtenMonth m) 1 0 0 0 0)
      ∧ merged.EndDate
          = (match inp.EndMonth with
            | none => ex.EndDate
            | some m =>
              if m = "" then none
              else some (timeDateUTC (Spec.writtenYear m) (Spec.writtenMonth m) 1 0 0 0 0))
      ∧ st'.rows = st.rows.map (fun r => if r.ID == id then merged else r)
      ∧ (Repository.Get st' id).1 = .ok merged
      ∧ (inp.EndMonth = some "" →
          merged.EndDate = none
          ∧ ∀ (userID serviceName : String) (fromT toT : Time),
              (userID = "" ∨ merged.UserID = userID) →
              (serviceName = "" ∨ merged.ServiceName = serviceName) →
              date_trunc_month fromT ≤ date_trunc_month toT →
              date_trunc_month merged.StartDate ≤ date_trunc_month toT →
              contribution merged userID serviceName fromT toT
                = merged.Price * (date_trunc_month toT
                    - max (date_trunc_month merged.StartDate) (date_trunc_month fromT) + 1)) := by
  obtain ⟨hid, hmem⟩ := find_some_id _ _ _ hex
  have hany : (st.rows.any fun r => r.ID == id) = true := by
    rw [List.any_eq_true]; exact ⟨ex, hmem, by simpa using hid⟩
  obtain ⟨sn, pr, sm, em⟩ := inp
  subst hid
  obtain ⟨m, hm⟩ : ∃ m : Subscription, m =
      { ID := ex.ID, ServiceName := sn.getD ex.ServiceName, Price := pr.getD ex.Price,
        UserID := ex.UserID,
        StartDate := sm.elim ex.StartDate fun x =>
          timeDateUTC (Spec.writtenYear x) (Spec.writtenMonth x) 1 0 0 0 0,
        EndDate := em.elim ex.EndDate fun x =>
          if x = "" then none
          else some (timeDateUTC (Spec.writtenYear x) (Spec.writtenMonth x) 1 0 0 0 0) } :=
    ⟨_, rfl⟩
  have hmid : m.ID = ex.ID := by rw [hm]
  have hcol : Repository.columnsAccept m = true := by
    have hn : ∀ n, sn = some n → Repository.textAccepts n = true := hname
    have hq : ∀ p, pr = some p → 0 ≤ p ∧ p ≤ 2147483647 := hprice
    simp only [Repository.columnsAccept, Bool.and_eq_true] at hrow ⊢
    rw [hm]
    constructor
    · cases pr with
      | none => exact hrow.1
      | some p =>
        have hb := hq p rfl
        simp only [Option.getD_some, Repository.int4Accepts, Bool.and_eq_true,
          decide_eq_true_eq]
        omega
    · cases sn with
      | none => exact hrow.2
      | some n => exact hn n rfl
  have hU : Service.Update st ex.ID ⟨sn, pr, sm, em⟩
      = (.ok m, ⟨st.rows.map (fun r => if r.ID == ex.ID then m else r),
          st.calls ++ [RepoCall.get ex.ID] ++ [RepoCall.update m]⟩) := by
    have hp : ∀ p, pr = some p → ¬ (p < 0) := fun p h => not_lt.2 (hprice p h).1
    have hs1 : ∀ x, sm = some x → Spec.isMonthString x = true := hstart
    have he1 : ∀ x, em = some x → x = "" ∨ Spec.isMonthString x = true := hend
    clear hprice hstart hend hname
    have step : ∀ (r : Except Error Subscription) (t : Subscription), r = .ok t → t.ID = ex.ID →
        Repository.columnsAccept t = true →
        (match r with
          | .error err => ((.error err : Except Error Subscription),
              ({ st with calls := st.calls ++ [RepoCall.get ex.ID] } : Store))
          | .ok e =>
            match Repository.Update { st with calls := st.calls ++ [RepoCall.get ex.ID] } e with
            | (some err, st2) => (.error err, st2)
            | (none, st2) => (.ok e, st2))
          = (.ok t, ⟨st.rows.map (fun r => if r.ID == ex.ID then t else r),
              st.calls ++ [RepoCall.get ex.ID] ++ [RepoCall.update t]⟩) := by
      intro r t hr ht hc
      subst hr
      simp only [Repository.Update, ht, hany, hc, if_true]
    simp only [Service.Update, Repository.Get, hex]
    refine step _ m ?_ hmid hcol
    · subst hm
      clear step hmid hcol
      cases sn <;> cases pr <;> cases sm <;> cases em <;>
        simp only [forall_eq', Option.some.injEq, reduceCtorEq, false_implies, implies_true]
          at hp hs1 he1 <;>
        simp [bind, Except.bind, pure, Except.pure, parseMonth_eq, hp, hs1]
      all_goals
        rename_i e
        by_cases hem : e = ""
        · simp [hem]
        · have hsh : Spec.isMonthString e = true := he1.resolve_left hem
          simp [hem, hsh]
  refine ⟨m, _, hU, hmid, by rw [hm], by rw [hm], by rw [hm], ?_, ?_, rfl, ?_, ?_⟩
  · rw [hm]; cases sm <;> rfl
  · rw [hm]; cases em <;> rfl
  · simp only [Repository.Get]
    rw [find_map_replace _ _ ex m hex hmid]
  · intro hclear
    have hem : em = some "" := hclear
    have hnone : m.EndDate = none := by rw [hm, hem]; rfl
    refine ⟨hnone, ?_⟩
    intro userID serviceName fromT toT hu hn hw hs
    exact contribution_open_ended m userID serviceName fromT toT hnone hw hs hu hn

/-- Clearing the end date of scenario A (07-2025..09-2025 at 300) with an
empty `end_date` while raising the price to 500: the row is persisted with no
end date, the other fields kept, and then totals 500 × 6 over
07-2025..12-2025 instead of the 300 × 3 of before. -/
theorem update_merges_present_fields_sample :
    (Service.Update ⟨[scenarioA, scenarioB], []⟩ scenarioA.ID ⟨none, some 500, none, some ""⟩).1
        = .ok { scenarioA with Price := 500, EndDate := none }
      ∧ (Service.Update ⟨[scenarioA, scenarioB], []⟩ scenarioA.ID
            ⟨none, some 500, none, some ""⟩).2.rows
          = [{ scenarioA with Price := 500, EndDate := none }, scenarioB]
      ∧ TotalForPeriod [scenarioA] "" "" (ym 7 2025) (ym 12 2025) = 900
      ∧ TotalForPeriod [{ scenarioA with Price := 500, EndDate := none }] "" ""
          (ym 7 2025) (ym 12 2025) = 3000
      ∧ ∃ merged st', Service.Update ⟨[scenarioA, scenarioB], []⟩ scenarioA.ID
            ⟨none, some 500, none, some ""⟩ = (.ok merged, st') ∧ merged.EndDate = none :=
  ⟨by decide, by decide, by decide, by decide,
    match update_merges_present_fields ⟨[scenarioA, scenarioB], []⟩ scenarioA.ID
        ⟨none, some 500, none, some ""⟩ scenarioA (by decide) (by decide) (by decide)
        (by decide) (by decide) (by decide) with
    | ⟨merged, st', h, _, _, _, _, _, _, _, _, hc⟩ => ⟨merged, st', h, (hc rfl).1⟩⟩

/-- C7, as stated, fails.  An update of an existing subscription with the
malformed start date `2025-07` is rejected only after `repo.Get` has been
called; and `service.Create` with the negative price -400 and otherwise valid
fields returns no error and calls `repo.Create`. -/
theorem shape_error_reaches_store :
    (Spec.isMonthString "2025-07" = false
      ∧ Service.Update ⟨[scenarioA], []⟩ scenarioA.ID ⟨none, none, some "2025-07", none⟩
          = (.error .invalidStartDate, ⟨[scenarioA], [RepoCall.get scenarioA.ID]⟩))
    ∧ (∀ uuidParse : String → Option String,
        uuidParse negativePriceRow.UserID = some negativePriceRow.UserID →
        Service.Create uuidParse negativePriceRow.ID ⟨[], []⟩
            ⟨"Yandex Plus", -400, negativePriceRow.UserID, "07-2025", none⟩
          = (.ok negativePriceRow,
              ⟨[negativePriceRow], [RepoCall.create { negativePriceRow with ID := "" }]⟩)) := by
  refine ⟨⟨by decide, by decide⟩, ?_⟩
  intro uuidParse hu
  have hp : parseMonth "07-2025" = .ok (ym 7 2025) := by decide
  simp only [Service.Create, hp, hu, Repository.Create]
  rfl

/-- C7, amended.  `service.Create` rejects a malformed `start_date`, a
malformed non-empty `end_date` and a malformed `user_id` before any repository
call: the store and its call record are as before.  `service.Update` rejects a
negative price, a malformed `start_date` and a malformed non-empty `end_date`
after the single read `repo.Get` of the id and before any write: the table is
unchanged and no `repo.Create` or `repo.Update` is called. -/
theorem shape_errors_rejected_without_writes :
    (∀ (uuidParse : String → Option String) (genID : String) (st : Store) (inp : CreateDTO),
        (Spec.isMonthString inp.StartMonth = false
          ∨ (∃ e, inp.EndMonth = some e ∧ e ≠ "" ∧ Spec.isMonthString e = false)
          ∨ uuidParse inp.UserID = none) →
        ∃ err, Service.Create uuidParse genID st inp = (.error err, st))
    ∧ (∀ (st : Store) (id : String) (inp : UpdateDTO),
        ((∃ p, inp.Price = some p ∧ p < 0)
          ∨ (∃ m, inp.StartMonth = some m ∧ Spec.isMonthString m = false)
          ∨ (∃ m, inp.EndMonth = some m ∧ m ≠ "" ∧ Spec.isMonthString m = false)) →
        ∃ err, Service.Update st id inp
          = (.error err, ⟨st.rows, st.calls ++ [RepoCall.get id]⟩)) := by
  constructor
  · intro uuidParse genID st inp h
    obtain ⟨sn, pr, uid, sm, em⟩ := inp
    simp only at h
    simp only [Service.Create, parseMonth_eq]
    by_cases hs : Spec.isMonthString sm = true
    · rcases h with h | ⟨e, he, hne, hbad⟩ | h
      · simp [h] at hs
      · subst he
        simp [hs, hne, hbad]
      · cases em with
        | none => simp [hs, h]
        | some e =>
          by_cases hne : e = ""
          · simp [hs, hne, h]
          · by_cases he : Spec.isMonthString e = true
            · simp [hs, hne, he, h]
            · simp [hs, hne, he]
    · simp [hs]
  · intro st id inp h
    obtain ⟨sn, pr, sm, em⟩ := inp
    simp only at h
    cases hfind : st.rows.find? fun r => r.ID == id with
    | none => exact ⟨.recordNotFound, by simp [Service.Update, Repository.Get, hfind]⟩
    | some ex =>
      have key : ∀ (r : Except Error Subscription) (err : Error), r = .error err →
          (match r with
            | .error err => ((.error err : Except Error Subscription),
                ({ st with calls := st.calls ++ [RepoCall.get id] } : Store))
            | .ok e =>
              match Repository.Update { st with calls := st.calls ++ [RepoCall.get id] } e with
              | (some err, st2) => (.error err, st2)
              | (none, st2) => (.ok e, st2))
            = (.error err, ⟨st.rows, st.calls ++ [RepoCall.get id]⟩) := by
        intro r err hr
        subst hr
        rfl
      simp only [Service.Update, Repository.Get, hfind]
      have hmerge : ∃ err, (do
          let ex :=
            match sn with
            | some name => { ex with ServiceName := name }
            | none => ex
          let ex ←
            match pr with
            | some price =>
              if price < 0 then .error .priceNegative else pure { ex with Price := price }
            | none => pure ex
          let ex ←
            match sm with
            | some m =>
              match parseMonth m with
              | .error _ => .error .invalidStartDate
              | .ok start => pure { ex with StartDate := start }
            | none => pure ex
          let ex ←
            match em with
            | some m =>
              if m = "" then pure { ex with EndDate := none }
              else
                match parseMonth m with
                | .error _ => .error .invalidEndDate
                | .ok ed => pure { ex with EndDate := some ed }
            | none => pure ex
          pure ex : Except Error Subscription) = .error err := by
        rcases h with ⟨p, hp, hneg⟩ | ⟨m, hm, hbad⟩ | ⟨m, hm, hne, hbad⟩
        · subst hp
          cases sn <;> exact ⟨.priceNegative, by simp [bind, Except.bind, hneg]⟩
        · subst hm
          have hpm : parseMonth m = .error .invalidFormat := by rw [parseMonth_eq]; simp [hbad]
          cases sn <;> cases pr <;>
            simp only [bind, Except.bind, pure, Except.pure, hpm]
          all_goals first
            | exact ⟨_, rfl⟩
            | (split <;> exact ⟨_, rfl⟩)
        · subst hm
          have hpm : parseMonth m = .error .invalidFormat := by rw [parseMonth_eq]; simp [hbad]
          cases sn <;> cases pr <;> cases sm <;>
            simp only [bind, Except.bind, pure, Except.pure, hpm, hne, if_false]
          all_goals first
            | exact ⟨_, rfl⟩
            | (split <;> first
                | exact ⟨_, rfl⟩
                | (split <;> exact ⟨_, rfl⟩))
      obtain ⟨err, herr⟩ := hmerge
      exact ⟨err, key _ err herr⟩

/-- A malformed start date is rejected by `service.Create` with the store
untouched, and a negative price by `service.Update` after the read of the id
only. -/
theorem shape_errors_rejected_without_writes_sample :
    (∃ err, Service.Create (fun s => some s) negativePriceRow.ID ⟨[scenarioA], []⟩
          ⟨"Yandex Plus", 400, scenarioA.UserID, "07.2025", none⟩
        = (.error err, ⟨[scenarioA], []⟩))
    ∧ (∃ err, Service.Update ⟨[scenarioA], []⟩ scenarioA.ID ⟨some "Yandex", some (-1), none, none⟩
        = (.error err, ⟨[scenarioA], [] ++ [RepoCall.get scenarioA.ID]⟩)) :=
  ⟨shape_errors_rejected_without_writes.1 (fun s => some s) negativePriceRow.ID
      ⟨[scenarioA], []⟩ ⟨"Yandex Plus", 400, scenarioA.UserID, "07.2025", none⟩
      (Or.inl (by decide)),
    shape_errors_rejected_without_writes.2 ⟨[scenarioA], []⟩ scenarioA.ID
      ⟨some "Yandex", some (-1), none, none⟩ (Or.inl ⟨-1, rfl, by decide⟩)⟩

/-- C8, at the failing input.  Deleting an id that no stored subscription has
(the table holds scenario A only, the id is that of scenario B) returns no
error from `service.Delete`, and the handler answers 200 `deleted` instead of
404 `not found`; the table is unchanged. -/
theorem delete_absent_id_reports_success :
    (([scenarioA].find? fun r => r.ID == scenarioB.ID) = none)
      ∧ Service.Delete ⟨[scenarioA], []⟩ scenarioB.ID
          = (none, ⟨[scenarioA], [RepoCall.delete scenarioB.ID]⟩)
      ∧ Handler.Delete ⟨[scenarioA], []⟩ scenarioB.ID
          = (200, ⟨[scenarioA], [RepoCall.delete scenarioB.ID]⟩) := by
  decide

/-! ## Bounds on the total -/

/-- C9. When every stored price is non-negative the total of `TotalForPeriod`
is non-negative, for every filter and window; and the total is exactly 0 when
no stored subscription is a candidate, in particular on the empty table and
when no row passes the `user_id` / `service_name` filters. -/
theorem total_nonneg_and_zero_without_candidates (rows : List Subscription)
    (userID serviceName : String) (fromT toT : Time) :
    ((∀ s ∈ rows, 0 ≤ s.Price) → 0 ≤ TotalForPeriod rows userID serviceName fromT toT)
    ∧ (Spec.selectCandidates rows (filterArg userID) (filterArg serviceName)
          (date_trunc_month fromT) (date_trunc_month toT) = [] →
        TotalForPeriod rows userID serviceName fromT toT = 0)
    ∧ TotalForPeriod [] userID serviceName fromT toT = 0
    ∧ ((∀ s ∈ rows, Spec.passesFilters (filterArg userID) (filterArg serviceName) s = false) →
        TotalForPeriod rows userID serviceName fromT toT = 0) := by
  refine ⟨?_, ?_, totalForPeriod_nil _ _ _ _, ?_⟩
  · intro hp
    rw [totalForPeriod_eq_reference]
    exact sumPricesForOverlap_nonneg rows _ _ _ _ hp
  · intro hc
    rw [totalForPeriod_eq_reference, Spec.sumPricesForOverlap, hc]
    rfl
  · intro hf
    rw [totalForPeriod_eq_reference, Spec.sumPricesForOverlap]
    have : Spec.selectCandidates rows (filterArg userID) (filterArg serviceName)
        (date_trunc_month fromT) (date_trunc_month toT) = [] := by
      unfold Spec.selectCandidates
      rw [List.filter_eq_nil_iff]
      intro s hs
      simp [hf s hs]
    rw [this]
    rfl

/-- Three rows at non-negative prices total 900 + 200 + 0 over 07-2025..09-2025
for their user, and nothing for a user who owns none of them. -/
theorem total_nonneg_and_zero_without_candidates_sample :
    0 ≤ TotalForPeriod [scenarioA, scenarioB, scenarioC] "" "" (ym 7 2025) (ym 9 2025)
      ∧ TotalForPeriod [scenarioA, scenarioB, scenarioC] "" "" (ym 7 2025) (ym 9 2025) = 1200
      ∧ TotalForPeriod [scenarioA, scenarioB, scenarioC]
          "99999999-9999-4999-8999-999999999999" "" (ym 7 2025) (ym 9 2025) = 0 :=
  ⟨(total_nonneg_and_zero_without_candidates [scenarioA, scenarioB, scenarioC] "" ""
      (ym 7 2025) (ym 9 2025)).1 (by decide),
    by decide,
    (total_nonneg_and_zero_without_candidates [scenarioA, scenarioB, scenarioC]
      "99999999-9999-4999-8999-999999999999" "" (ym 7 2025) (ym 9 2025)).2.2.2 (by decide)⟩

/-- C10. A subscription whose overlap interval is empty,
`min(end_month_or(to_m), to_m) < max(start_month, from_m)`, adds nothing to the
total of any table it is stored in, whether or not it satisfies the candidate
predicate (its month series is empty, so it has no group); consequently every
total over an inverted window `to_m < from_m` is 0, from `TotalForPeriod` and
from `service.Total`. -/
theorem empty_overlap_contributes_zero :
    (∀ (pre post : List Subscription) (s : Subscription) (userID serviceName : String)
        (fromT toT : Time),
        min (Spec.end_month_or s (date_trunc_month toT)) (date_trunc_month toT)
            < max (Spec.start_month s) (date_trunc_month fromT) →
        TotalForPeriod (pre ++ s :: post) userID serviceName fromT toT
          = TotalForPeriod (pre ++ post) userID serviceName fromT toT)
    ∧ (∀ (rows : List Subscription) (userID serviceName : String) (fromT toT : Time),
        date_trunc_month toT < date_trunc_month fromT →
        TotalForPeriod rows userID serviceName fromT toT = 0
          ∧ Total rows ⟨userID, serviceName, fromT, toT⟩ = 0) := by
  constructor
  · intro pre post s userID serviceName fromT toT h
    rw [totalForPeriod_insert, contribution_empty_overlap s _ _ _ _ h, add_zero]
  · intro rows userID serviceName fromT toT h
    refine ⟨totalForPeriod_inverted rows _ _ _ _ h, ?_⟩
    exact totalForPeriod_inverted rows _ _ _ _ h

/-- A row ending (03-2025) before it starts (05-2025) is a candidate of the
window 01-2025..10-2025 and adds nothing to the total there; and the total of
scenario A over the inverted window 09-2025..07-2025 is 0. -/
theorem empty_overlap_contributes_zero_sample :
    Spec.isCandidate invertedRow (date_trunc_month (ym 1 2025))
        (date_trunc_month (ym 10 2025)) = true
      ∧ TotalForPeriod [scenarioA, invertedRow] "" "" (ym 1 2025) (ym 10 2025)
          = TotalForPeriod [scenarioA] "" "" (ym 1 2025) (ym 10 2025)
      ∧ TotalForPeriod [scenarioA] "" "" (ym 9 2025) (ym 7 2025) = 0 :=
  ⟨by decide,
    empty_overlap_contributes_zero.1 [scenarioA] [] invertedRow "" "" (ym 1 2025) (ym 10 2025)
      (by decide),
    (empty_overlap_contributes_zero.2 [scenarioA] "" "" (ym 9 2025) (ym 7 2025)
      (by decide)).1⟩

/-! ## Window additivity -/

/-- The months a row shares with a window split at any month of the window:
those up to the split month and those after it. -/
theorem candidate_months_split (s : Subscription) (a b c : Int) (hab : a ≤ b) (hbc : b < c) :
    (if Spec.isCandidate s a c = true then Spec.overlap_month_count s a c else 0)
      = (if Spec.isCandidate s a b = true then Spec.overlap_month_count s a b else 0)
        + (if Spec.isCandidate s (b + 1) c = true then Spec.overlap_month_count s (b + 1) c
            else 0) := by
  simp only [Spec.isCandidate, Spec.overlap_month_count, Spec.overlap_start, Spec.overlap_end,
    Spec.monthsInclusive, Bool.and_eq_true, decide_eq_true_eq]
  cases hE : s.EndDate with
  | none =>
    simp only [Spec.end_month_or, hE]
    split_ifs <;> omega
  | some e =>
    simp only [Spec.end_month_or, hE]
    split_ifs <;> omega

/-- The contribution of a row passing the filters, as price times months. -/
theorem contribution_eq_mul (s : Subscription) (userID serviceName : String)
    (fromT toT : Time)
    (hp : Spec.passesFilters (filterArg userID) (filterArg serviceName) s = true) :
    contribution s userID serviceName fromT toT
      = s.Price *
          (if Spec.isCandidate s (date_trunc_month fromT) (date_trunc_month toT) = true then
            Spec.overlap_month_count s (date_trunc_month fromT) (date_trunc_month toT)
          else 0) := by
  rw [contribution_eq]
  simp only [hp, true_and]
  split
  · rfl
  · rw [mul_zero]

theorem contribution_of_filtered_out (s : Subscription) (userID serviceName : String)
    (fromT toT : Time)
    (hp : ¬ Spec.passesFilters (filterArg userID) (filterArg serviceName) s = true) :
    contribution s userID serviceName fromT toT = 0 := by
  rw [contribution_eq, if_neg fun h => hp h.1]

theorem contribution_split (s : Subscription) (userID serviceName : String)
    (a b b1 c : Time) (hab : date_trunc_month a ≤ date_trunc_month b)
    (hb1 : date_trunc_month b1 = date_trunc_month b + 1)
    (hbc : date_trunc_month b < date_trunc_month c) :
    contribution s userID serviceName a c
      = contribution s userID serviceName a b + contribution s userID serviceName b1 c := by
  by_cases hp : Spec.passesFilters (filterArg userID) (filterArg serviceName) s = true
  · rw [contribution_eq_mul s _ _ a c hp, contribution_eq_mul s _ _ a b hp,
      contribution_eq_mul s _ _ b1 c hp, hb1, candidate_months_split s _ _ _ hab hbc, mul_add]
  · rw [contribution_of_filtered_out s _ _ a c hp, contribution_of_filtered_out s _ _ a b hp,
      contribution_of_filtered_out s _ _ b1 c hp, add_zero]

theorem contribution_nonneg (s : Subscription) (userID serviceName : String)
    (fromT toT : Time) (hp : 0 ≤ s.Price) :
    0 ≤ contribution s userID serviceName fromT toT := by
  rw [contribution_eq]
  split
  · exact mul_nonneg hp (overlap_nonneg s _ _)
  · exact le_refl _

/-- The total is the sum of the contributions of the rows. -/
theorem totalForPeriod_cons (s : Subscription) (rest : List Subscription)
    (userID serviceName : String) (fromT toT : Time) :
    TotalForPeriod (s :: rest) userID serviceName fromT toT
      = TotalForPeriod rest userID serviceName fromT toT
        + contribution s userID serviceName fromT toT :=
  totalForPeriod_insert [] rest s userID serviceName fromT toT

theorem totalForPeriod_split (rows : List Subscription) (userID serviceName : String)
    (a b b1 c : Time) (hab : date_trunc_month a ≤ date_trunc_month b)
    (hb1 : date_trunc_month b1 = date_trunc_month b + 1)
    (hbc : date_trunc_month b < date_trunc_month c) :
    TotalForPeriod rows userID serviceName a c
      = TotalForPeriod rows userID serviceName a b
        + TotalForPeriod rows userID serviceName b1 c := by
  induction rows with
  | nil => simp only [totalForPeriod_nil, add_zero]
  | cons s rest ih =>
    rw [totalForPeriod_cons, totalForPeriod_cons, totalForPeriod_cons, ih,
      contribution_split s userID serviceName a b b1 c hab hb1 hbc]
    ring

theorem totalForPeriod_nonneg (rows : List Subscription) (userID serviceName : String)
    (fromT toT : Time) (hp : ∀ s ∈ rows, 0 ≤ s.Price) :
    0 ≤ TotalForPeriod rows userID serviceName fromT toT := by
  rw [totalForPeriod_eq_reference]
  exact sumPricesForOverlap_nonneg rows _ _ _ _ hp

/-- C11. Window additivity: for every table of subscriptions, bounded or
open-ended, every pair of filter arguments and all months `a ≤ b < c`, the
total of `TotalForPeriod` over `[a, c]` is its total over `[a, b]` plus its
total over `[b + 1 month, c]`; hence, when every stored price is non-negative,
neither part exceeds the whole: widening the window never decreases the total. -/
theorem window_additivity (rows : List Subscription) (userID serviceName : String)
    (a b b1 c : Time) (hab : date_trunc_month a ≤ date_trunc_month b)
    (hb1 : date_trunc_month b1 = date_trunc_month b + 1)
    (hbc : date_trunc_month b < date_trunc_month c) :
    TotalForPeriod rows userID serviceName a c
        = TotalForPeriod rows userID serviceName a b
          + TotalForPeriod rows userID serviceName b1 c
      ∧ ((∀ s ∈ rows, 0 ≤ s.Price) →
          TotalForPeriod rows userID serviceName a b
              ≤ TotalForPeriod rows userID serviceName a c
            ∧ TotalForPeriod rows userID serviceName b1 c
              ≤ TotalForPeriod rows userID serviceName a c) := by
  have hsplit := totalForPeriod_split rows userID serviceName a b b1 c hab hb1 hbc
  refine ⟨hsplit, fun hp => ?_⟩
  have h1 := totalForPeriod_nonneg rows userID serviceName a b hp
  have h2 := totalForPeriod_nonneg rows userID serviceName b1 c hp
  constructor
  · rw [hsplit]; exact le_add_of_nonneg_right h2
  · rw [hsplit]; exact le_add_of_nonneg_left h1

/-- Scenarios A, B (open-ended), C and the row ending before it starts, over
the year 2025 split after July: 500 for 01-2025..07-2025 and 1100 for
08-2025..12-2025 add up to the total of 01-2025..12-2025, which is not below
the total of the first seven months. -/
theorem window_additivity_sample :
    TotalForPeriod [scenarioA, scenarioB, scenarioC, invertedRow] "" ""
        (ym 1 2025) (ym 7 2025) = 500
      ∧ TotalForPeriod [scenarioA, scenarioB, scenarioC, invertedRow] "" ""
          (ym 8 2025) (ym 12 2025) = 1100
      ∧ TotalForPeriod [scenarioA, scenarioB, scenarioC, invertedRow] "" ""
          (ym 1 2025) (ym 12 2025)
        = TotalForPeriod [scenarioA, scenarioB, scenarioC, invertedRow] "" ""
            (ym 1 2025) (ym 7 2025)
          + TotalForPeriod [scenarioA, scenarioB, scenarioC, invertedRow] "" ""
            (ym 8 2025) (ym 12 2025)
      ∧ TotalForPeriod [scenarioA, scenarioB, scenarioC, invertedRow] "" ""
          (ym 1 2025) (ym 7 2025)
        ≤ TotalForPeriod [scenarioA, scenarioB, scenarioC, invertedRow] "" ""
          (ym 1 2025) (ym 12 2025) :=
  ⟨by decide, by decide,
    (window_additivity [scenarioA, scenarioB, scenarioC, invertedRow] "" ""
      (ym 1 2025) (ym 7 2025) (ym 8 2025) (ym 12 2025)
      (by decide) (by decide) (by decide)).1,
    ((window_additivity [scenarioA, scenarioB, scenarioC, invertedRow] "" ""
      (ym 1 2025) (ym 7 2025) (ym 8 2025) (ym 12 2025)
      (by decide) (by decide) (by decide)).2 (by decide)).1⟩

end SubscriptionService
